import Mathlib

/-!
Verification of the moveslice crate (src/lib.rs) against its specification.

The crate provides one operation: `try_moveslice`, which relocates a
contiguous chunk of a slice to a destination index, in place, using
`split_at_mut` and `rotate_left` / `rotate_right`.

Embedding notes:
- A Rust slice of element type T is a `List α`; in-place mutation is modelled
  by returning the post-call contents of the slice together with the
  `Result` value.
- `usize` arithmetic and the panicking library primitives are modelled in
  `Option`: `none` is a panic (subtraction underflow, out-of-range
  `split_at_mut`, out-of-range rotation).  `try_moveslice` itself never
  deliberately panics, so a `none` result marks an input on which the Rust
  code would abort rather than return.
-/

namespace Moveslice

/-- Endpoint of a Rust range expression, as in `core::ops::Bound<usize>`. -/
inductive RBound where
| Included (n : Nat)
| Excluded (n : Nat)
| Unbounded
deriving DecidableEq, Repr

/-- The `Error` enum of src/lib.rs: `OutOfBoundsMove {len, dest}` and
`InvalidBounds {len, bounds}`. -/
inductive Error where
| OutOfBoundsMove (len : Nat) (dest : Nat × Nat)
| InvalidBounds (len : Nat) (bounds : Nat × Nat)
deriving DecidableEq, Repr

/-- Checked `usize` subtraction: Rust `a - b` panics on underflow, modelled
as `none`. -/
def csub (a b : Nat) : Option Nat := if b ≤ a then some (a - b) else none

/-- Rust `slice::split_at_mut i`: the two disjoint views `(l.take i, l.drop i)`;
panics (`none`) when `i` exceeds the length. -/
def splitAtChecked (l : List α) (i : Nat) : Option (List α × List α) :=
  if i ≤ l.length then some (l.take i, l.drop i) else none

/-- Rust `slice::rotate_left k`: the first `k` elements move to the end;
panics (`none`) when `k` exceeds the length. -/
def rotateLeftChecked (l : List α) (k : Nat) : Option (List α) :=
  if k ≤ l.length then some (l.drop k ++ l.take k) else none

/-- Rust `slice::rotate_right k`: the last `k` elements move to the front;
panics (`none`) when `k` exceeds the length. -/
def rotateRightChecked (l : List α) (k : Nat) : Option (List α) :=
  if k ≤ l.length then some (l.drop (l.length - k) ++ l.take (l.length - k)) else none

/-- The body of `try_moveslice` (src/lib.rs lines 146-183) after the range
bounds have been resolved to the concrete pair `chunk`.  The returned list is
the contents of the slice when the call returns; `none` models a panic. -/
def try_moveslice_core (slice : List α) (chunk : Nat × Nat) (destination : Nat) :
    Option (List α × Except Error Unit) :=
  match chunk with
  | (c0, c1) =>
    if c0 > slice.length ∨ c1 > slice.length then
      some (slice, Except.error (Error.InvalidBounds slice.length (c0, c1)))
    else if destination > c0 then do
      let chunksize ← csub c1 c0
      let index2 ← csub (destination + chunksize) c0
      let pm ← splitAtChecked slice c0
      if index2 ≤ pm.2.length then do
        let mr ← splitAtChecked pm.2 index2
        let amt ← csub c1 c0
        let rot ← rotateLeftChecked mr.1 amt
        some (pm.1 ++ rot ++ mr.2, Except.ok ())
      else
        some (slice, Except.error (Error.OutOfBoundsMove slice.length
          (destination, destination + chunksize)))
    else if destination < c0 then do
      let index2 ← csub c1 destination
      let pm ← splitAtChecked slice destination
      let mr ← splitAtChecked pm.2 index2
      let amt ← csub c1 c0
      let rot ← rotateRightChecked mr.1 amt
      some (pm.1 ++ rot ++ mr.2, Except.ok ())
    else
      some (slice, Except.ok ())

/-- `try_moveslice` (src/lib.rs lines 136-184): resolve the two range-endpoint
bounds to a concrete `(start, end)` pair exactly as lines 140-146 do, then run
the core. -/
def try_moveslice (slice : List α) (startbound endbound : RBound) (destination : Nat) :
    Option (List α × Except Error Unit) :=
  let x := match startbound with
    | RBound.Included v => v
    | _ => 0
  let y := match endbound with
    | RBound.Excluded v => v
    | RBound.Included v => v + 1
    | RBound.Unbounded => slice.length
  try_moveslice_core slice (x, y) destination

/-- Modelled from the spec: start-endpoint resolution ("an unbounded start
resolves to 0"; an inclusive start carries its value; the spec leaves an
excluded start unspecified, and the code sends it to 0). -/
def resolveStart : RBound → Nat
  | RBound.Included v => v
  | RBound.Excluded _ => 0
  | RBound.Unbounded => 0

/-- Modelled from the spec: end-endpoint resolution ("an unbounded end
resolves to the sequence length, an inclusive end resolves to
`end_value + 1`", an exclusive end carries its value). -/
def resolveEnd (len : Nat) : RBound → Nat
  | RBound.Excluded v => v
  | RBound.Included v => v + 1
  | RBound.Unbounded => len

/-- The segment of a list between two indices: elements at positions
`[a, b)`. -/
def seg (l : List α) (a b : Nat) : List α := (l.drop a).take (b - a)

theorem csub_of_le {a b : Nat} (h : b ≤ a) : csub a b = some (a - b) := by
  simp [csub, h]

theorem splitAtChecked_of_le {l : List α} {i : Nat} (h : i ≤ l.length) :
    splitAtChecked l i = some (l.take i, l.drop i) := by
  simp [splitAtChecked, h]

theorem rotateLeftChecked_of_le {l : List α} {k : Nat} (h : k ≤ l.length) :
    rotateLeftChecked l k = some (l.drop k ++ l.take k) := by
  simp [rotateLeftChecked, h]

theorem rotateRightChecked_of_le {l : List α} {k : Nat} (h : k ≤ l.length) :
    rotateRightChecked l k = some (l.drop (l.length - k) ++ l.take (l.length - k)) := by
  simp [rotateRightChecked, h]

theorem length_seg {l : List α} {a b : Nat} (h : b ≤ l.length) :
    (seg l a b).length = b - a := by
  simp [seg]
  omega

theorem getElem?_seg {l : List α} {a b k : Nat} (h : k < b - a) :
    (seg l a b)[k]? = l[a + k]? := by
  rw [seg, List.getElem?_take_of_lt h, List.getElem?_drop]

theorem seg_append_seg {l : List α} {a b c : Nat} (hab : a ≤ b) (hbc : b ≤ c) :
    seg l a b ++ seg l b c = seg l a c := by
  have h1 : c - a = (b - a) + (c - b) := by omega
  have h2 : a + (b - a) = b := by omega
  simp only [seg]
  rw [h1, List.take_add, List.drop_drop, h2]

theorem seg_drop {l : List α} {a b : Nat} (hab : a ≤ b) :
    seg l a b ++ l.drop b = l.drop a := by
  have h2 : (l.drop a).drop (b - a) = l.drop b := by
    rw [List.drop_drop]
    congr 1
    omega
  rw [seg, ← h2, List.take_append_drop]

theorem take_seg_drop {l : List α} {a b : Nat} (hab : a ≤ b) :
    l.take a ++ (seg l a b ++ l.drop b) = l := by
  rw [seg_drop hab, List.take_append_drop]

theorem length_block {l M : List α} {p q : Nat} (hp : p ≤ l.length) (hq : q ≤ l.length)
    (hpq : p ≤ q) (hM : M.length = q - p) :
    (l.take p ++ (M ++ l.drop q)).length = l.length := by
  simp [List.length_append]
  omega

theorem getElem?_block_left {l M : List α} {p q i : Nat} (hp : p ≤ l.length) (hi : i < p) :
    (l.take p ++ (M ++ l.drop q))[i]? = l[i]? := by
  rw [List.getElem?_append_left, List.getElem?_take_of_lt hi]
  simp only [List.length_take]
  omega

theorem getElem?_block_right {l M : List α} {p q i : Nat} (hp : p ≤ l.length)
    (hpq : p ≤ q) (hM : M.length = q - p) (hi : q ≤ i) :
    (l.take p ++ (M ++ l.drop q))[i]? = l[i]? := by
  rw [List.getElem?_append_right (by simp [List.length_take]; omega)]
  rw [List.getElem?_append_right (by simp [List.length_take]; omega)]
  rw [List.getElem?_drop]
  congr 1
  simp only [List.length_take]
  omega

theorem getElem?_block_mid {l M : List α} {p q k : Nat} (hp : p ≤ l.length)
    (hk : k < M.length) :
    (l.take p ++ (M ++ l.drop q))[p + k]? = M[k]? := by
  rw [List.getElem?_append_right (by simp only [List.length_take]; omega)]
  rw [List.getElem?_append_left (by simp only [List.length_take]; omega)]
  congr 1
  simp only [List.length_take]
  omega

theorem block_take_eq {l X Y : List α} {p q u : Nat} (hp : p ≤ l.length) (hu : u = p) :
    (l.take p ++ ((X ++ Y) ++ l.drop q)).take u = l.take p := by
  rw [hu]
  exact List.take_left' (by simp [List.length_take]; omega)

theorem block_drop_eq {l X Y : List α} {p q u : Nat} (hp : p ≤ l.length)
    (hu : u = p + X.length + Y.length) :
    (l.take p ++ ((X ++ Y) ++ l.drop q)).drop u = l.drop q := by
  rw [hu]
  rw [← List.append_assoc, ← List.append_assoc]
  exact List.drop_left' (by simp [List.length_take, List.length_append]; omega)

theorem block_seg_first {l X Y : List α} {p q u v : Nat} (hp : p ≤ l.length)
    (hu : u = p) (hv : v = p + X.length) :
    seg (l.take p ++ ((X ++ Y) ++ l.drop q)) u v = X := by
  rw [hu, hv]
  rw [seg, List.drop_left' (by simp [List.length_take]; omega), List.append_assoc]
  have h2 : p + X.length - p = X.length := by omega
  rw [h2]
  exact List.take_left' rfl

theorem block_seg_second {l X Y : List α} {p q u v : Nat} (hp : p ≤ l.length)
    (hu : u = p + X.length) (hv : v = p + X.length + Y.length) :
    seg (l.take p ++ ((X ++ Y) ++ l.drop q)) u v = Y := by
  rw [hu, hv]
  have h1 : l.take p ++ ((X ++ Y) ++ l.drop q) = (l.take p ++ X) ++ (Y ++ l.drop q) := by
    simp [List.append_assoc]
  rw [seg, h1, List.drop_left' (by simp [List.length_take, List.length_append]; omega)]
  have h2 : p + X.length + Y.length - (p + X.length) = Y.length := by omega
  rw [h2]
  exact List.take_left' rfl

theorem core_invalid (S : List α) (a b d : Nat) (h : S.length < a ∨ S.length < b) :
    try_moveslice_core S (a, b) d =
      some (S, Except.error (Error.InvalidBounds S.length (a, b))) := by
  simp only [try_moveslice_core]
  rw [if_pos (by omega)]

theorem core_oob (S : List α) (a b d : Nat) (hab : a ≤ b) (hb : b ≤ S.length)
    (hd : S.length < d + (b - a)) :
    try_moveslice_core S (a, b) d =
      some (S, Except.error (Error.OutOfBoundsMove S.length (d, d + (b - a)))) := by
  have ha : a ≤ S.length := le_trans hab hb
  have hgt : d > a := by omega
  simp only [try_moveslice_core]
  rw [if_neg (by omega), if_pos hgt]
  rw [csub_of_le hab]
  simp only [Option.bind_eq_bind, Option.some_bind]
  rw [csub_of_le (by omega : a ≤ d + (b - a))]
  simp only [Option.some_bind]
  rw [splitAtChecked_of_le ha]
  simp only [Option.some_bind]
  rw [if_neg (by simp only [List.length_drop]; omega)]

theorem core_ok_of_eq (S : List α) (a b : Nat) (ha : a ≤ S.length) (hb : b ≤ S.length) :
    try_moveslice_core S (a, b) a = some (S, Except.ok ()) := by
  simp only [try_moveslice_core]
  rw [if_neg (by omega), if_neg (by omega), if_neg (by omega)]

theorem core_ok_of_gt (S : List α) (a b d : Nat)
    (hab : a ≤ b) (hb : b ≤ S.length) (hd : d + (b - a) ≤ S.length) (hgt : a < d) :
    try_moveslice_core S (a, b) d =
      some (S.take a ++ ((seg S b (d + (b - a)) ++ seg S a b) ++ S.drop (d + (b - a))),
        Except.ok ()) := by
  have ha : a ≤ S.length := le_trans hab hb
  have hgt' : d > a := hgt
  simp only [try_moveslice_core]
  rw [if_neg (by omega), if_pos hgt']
  rw [csub_of_le hab]
  simp only [Option.bind_eq_bind, Option.some_bind]
  rw [csub_of_le (by omega : a ≤ d + (b - a))]
  simp only [Option.some_bind]
  rw [splitAtChecked_of_le ha]
  simp only [Option.some_bind]
  rw [if_pos (by simp only [List.length_drop]; omega)]
  rw [splitAtChecked_of_le (by simp only [List.length_drop]; omega)]
  simp only [Option.some_bind]
  rw [rotateLeftChecked_of_le
    (by simp only [List.length_take, List.length_drop]; omega)]
  simp only [Option.some_bind]
  have eA : ((S.drop a).take (d + (b - a) - a)).drop (b - a) = seg S b (d + (b - a)) := by
    rw [List.drop_take, List.drop_drop, seg]
    congr 1
    · omega
    · congr 1
      omega
  have eB : ((S.drop a).take (d + (b - a) - a)).take (b - a) = seg S a b := by
    rw [List.take_take, seg]
    congr 1
    omega
  have eC : (S.drop a).drop (d + (b - a) - a) = S.drop (d + (b - a)) := by
    rw [List.drop_drop]
    congr 1
    omega
  rw [eA, eB, eC]
  exact congrArg (fun t => some (t, Except.ok ())) (List.append_assoc _ _ _)

theorem core_ok_of_lt (S : List α) (a b d : Nat)
    (hab : a ≤ b) (hb : b ≤ S.length) (hlt : d < a) :
    try_moveslice_core S (a, b) d =
      some (S.take d ++ ((seg S a b ++ seg S d a) ++ S.drop b), Except.ok ()) := by
  have ha : a ≤ S.length := le_trans hab hb
  simp only [try_moveslice_core]
  rw [if_neg (by omega), if_neg (by omega), if_pos hlt]
  rw [csub_of_le (by omega : d ≤ b)]
  simp only [Option.bind_eq_bind, Option.some_bind]
  rw [splitAtChecked_of_le (by omega : d ≤ S.length)]
  simp only [Option.some_bind]
  rw [splitAtChecked_of_le (by simp only [List.length_drop]; omega)]
  simp only [Option.some_bind]
  rw [csub_of_le hab]
  simp only [Option.some_bind]
  rw [rotateRightChecked_of_le
    (by simp only [List.length_take, List.length_drop]; omega)]
  simp only [Option.some_bind]
  have hXlen : ((S.drop d).take (b - d)).length = b - d := by
    simp only [List.length_take, List.length_drop]
    omega
  rw [hXlen]
  have eA : ((S.drop d).take (b - d)).drop ((b - d) - (b - a)) = seg S a b := by
    rw [List.drop_take, List.drop_drop, seg]
    congr 1
    · omega
    · congr 1
      omega
  have eB : ((S.drop d).take (b - d)).take ((b - d) - (b - a)) = seg S d a := by
    rw [List.take_take, seg]
    congr 1
    omega
  have eC : (S.drop d).drop (b - d) = S.drop b := by
    rw [List.drop_drop]
    congr 1
    omega
  rw [eA, eB, eC]
  exact congrArg (fun t => some (t, Except.ok ())) (List.append_assoc _ _ _)

theorem block_swap_perm (A X Y D : List α) :
    (A ++ ((X ++ Y) ++ D)).Perm (A ++ ((Y ++ X) ++ D)) :=
  List.Perm.append_left A (List.Perm.append_right D List.perm_append_comm)

theorem canonical_perm_gt (S : List α) (a b d : Nat) (hab : a ≤ b)
    (hbd : b ≤ d + (b - a)) (had : a ≤ d + (b - a)) :
    (S.take a ++ ((seg S b (d + (b - a)) ++ seg S a b) ++ S.drop (d + (b - a)))).Perm S := by
  have h := block_swap_perm (S.take a) (seg S b (d + (b - a))) (seg S a b)
    (S.drop (d + (b - a)))
  rw [seg_append_seg hab hbd, take_seg_drop had] at h
  exact h

theorem canonical_perm_lt (S : List α) (a b d : Nat) (hda : d ≤ a) (hab : a ≤ b) :
    (S.take d ++ ((seg S a b ++ seg S d a) ++ S.drop b)).Perm S := by
  have h := block_swap_perm (S.take d) (seg S a b) (seg S d a) (S.drop b)
  rw [seg_append_seg hda hab, take_seg_drop (le_trans hda hab)] at h
  exact h

theorem block_read_first {l : List α} (X Y : List α) {p q u k : Nat}
    (hp : p ≤ l.length) (hu : u = p + k) (hk : k < X.length) :
    (l.take p ++ ((X ++ Y) ++ l.drop q))[u]? = X[k]? := by
  rw [hu]
  exact (getElem?_block_mid hp (by rw [List.length_append]; omega)).trans
    (List.getElem?_append_left hk)

theorem block_read_second {l : List α} (X Y : List α) {p q u k : Nat}
    (hp : p ≤ l.length) (hu : u = p + X.length + k) (hk : k < Y.length) :
    (l.take p ++ ((X ++ Y) ++ l.drop q))[u]? = Y[k]? := by
  have h1 : u = p + (X.length + k) := by omega
  rw [h1]
  refine (getElem?_block_mid hp (by rw [List.length_append]; omega)).trans ?_
  rw [List.getElem?_append_right (by omega : X.length ≤ X.length + k)]
  congr 1
  omega

theorem undo_gt (S : List α) (a b d : Nat) (hab : a ≤ b) (hb : b ≤ S.length)
    (hd : d + (b - a) ≤ S.length) (hgt : a < d) :
    try_moveslice_core
      (S.take a ++ ((seg S b (d + (b - a)) ++ seg S a b) ++ S.drop (d + (b - a))))
      (d, d + (b - a)) a = some (S, Except.ok ()) := by
  have ha : a ≤ S.length := le_trans hab hb
  have hX : (seg S b (d + (b - a))).length = d - a := by
    rw [length_seg hd]
    omega
  have hY : (seg S a b).length = b - a := length_seg hb
  set T := S.take a ++ ((seg S b (d + (b - a)) ++ seg S a b) ++ S.drop (d + (b - a)))
    with hT
  have hTlen : T.length = S.length := by
    rw [hT]
    refine length_block ha hd (by omega) ?_
    rw [List.length_append]
    omega
  rw [core_ok_of_lt T d (d + (b - a)) a (by omega) (by rw [hTlen]; exact hd) hgt]
  have e1 : T.take a = S.take a := by
    rw [hT]
    exact block_take_eq ha rfl
  have e2 : seg T d (d + (b - a)) = seg S a b := by
    rw [hT]
    exact block_seg_second ha (by omega) (by omega)
  have e3 : seg T a d = seg S b (d + (b - a)) := by
    rw [hT]
    exact block_seg_first ha rfl (by omega)
  have e4 : T.drop (d + (b - a)) = S.drop (d + (b - a)) := by
    rw [hT]
    exact block_drop_eq ha (by omega)
  rw [e1, e2, e3, e4]
  have hbc : b ≤ d + (b - a) := by omega
  rw [seg_append_seg hab hbc, take_seg_drop (le_trans hab hbc)]

theorem undo_lt (S : List α) (a b d : Nat) (hab : a ≤ b) (hb : b ≤ S.length)
    (hlt : d < a) :
    try_moveslice_core (S.take d ++ ((seg S a b ++ seg S d a) ++ S.drop b))
      (d, d + (b - a)) a = some (S, Except.ok ()) := by
  have ha : a ≤ S.length := le_trans hab hb
  have hX : (seg S a b).length = b - a := length_seg hb
  have hY : (seg S d a).length = a - d := length_seg ha
  set T := S.take d ++ ((seg S a b ++ seg S d a) ++ S.drop b) with hT
  have hTlen : T.length = S.length := by
    rw [hT]
    refine length_block (by omega) hb (by omega) ?_
    rw [List.length_append]
    omega
  rw [core_ok_of_gt T d (d + (b - a)) a (by omega) (by rw [hTlen]; omega)
    (by rw [hTlen]; omega) hlt]
  have f1 : T.take d = S.take d := by
    rw [hT]
    exact block_take_eq (by omega) rfl
  have f2 : seg T d (d + (b - a)) = seg S a b := by
    rw [hT]
    exact block_seg_first (by omega) rfl (by omega)
  have f3 : seg T (d + (b - a)) (a + (d + (b - a) - d)) = seg S d a := by
    rw [hT]
    exact block_seg_second (by omega) (by omega) (by omega)
  have f4 : T.drop (a + (d + (b - a) - d)) = S.drop b := by
    rw [hT]
    exact block_drop_eq (by omega) (by omega)
  rw [f2, f3, f4, f1]
  have hda : d ≤ a := le_of_lt hlt
  rw [seg_append_seg hda hab, take_seg_drop (le_trans hda hab)]

/-- C1: for every sequence `S`, chunk `(a, b)` with `a ≤ b ≤ len S`, and
destination `d` with `d + (b - a) ≤ len S`, `try_moveslice` succeeds and
permutes `S` so that the elements originally at `[a, b)` occupy
`[d, d + (b - a))` in their original relative order, and the elements that
were strictly between the chunk and the destination are shifted to fill the
vacated space, preserving their relative order. -/
theorem c1_relocation {α : Type} (S : List α) (a b d : Nat)
    (hab : a ≤ b) (hb : b ≤ S.length) (hd : d + (b - a) ≤ S.length) :
    ∃ T, try_moveslice_core S (a, b) d = some (T, Except.ok ()) ∧
      T.Perm S ∧
      (∀ k, k < b - a → T[d + k]? = S[a + k]?) ∧
      (∀ j, j < d - a → T[a + j]? = S[b + j]?) ∧
      (∀ j, j < a - d → T[d + (b - a) + j]? = S[d + j]?) := by
  have ha : a ≤ S.length := le_trans hab hb
  rcases Nat.lt_trichotomy a d with hgt | heq | hlt
  · have hX : (seg S b (d + (b - a))).length = d - a := by
      rw [length_seg hd]
      omega
    have hY : (seg S a b).length = b - a := length_seg hb
    refine ⟨_, core_ok_of_gt S a b d hab hb hd hgt,
      canonical_perm_gt S a b d hab (by omega) (by omega), ?_, ?_, ?_⟩
    · intro k hk
      exact (block_read_second (seg S b (d + (b - a))) (seg S a b) ha (by omega)
        (by omega)).trans (getElem?_seg hk)
    · intro j hj
      exact (block_read_first (seg S b (d + (b - a))) (seg S a b) ha (by omega)
        (by omega)).trans (getElem?_seg (by omega))
    · intro j hj
      exact absurd hj (by omega)
  · subst heq
    refine ⟨S, core_ok_of_eq S a b ha hb, List.Perm.refl S, ?_, ?_, ?_⟩
    · intro k hk
      rfl
    · intro j hj
      exact absurd hj (by omega)
    · intro j hj
      exact absurd hj (by omega)
  · have hX : (seg S a b).length = b - a := length_seg hb
    have hY : (seg S d a).length = a - d := length_seg ha
    refine ⟨_, core_ok_of_lt S a b d hab hb hlt,
      canonical_perm_lt S a b d (le_of_lt hlt) hab, ?_, ?_, ?_⟩
    · intro k hk
      exact (block_read_first (seg S a b) (seg S d a) (by omega) rfl
        (by omega)).trans (getElem?_seg hk)
    · intro j hj
      exact absurd hj (by omega)
    · intro j hj
      exact (block_read_second (seg S a b) (seg S d a) (by omega) (by omega)
        (by omega)).trans (getElem?_seg (by omega))

/-- Witness for C1 at the spec scenario: moving chunk `(3, 6)` of
`[1..9]` to destination 1. -/
theorem c1_relocation_witness :
    ∃ T, try_moveslice_core ([1,2,3,4,5,6,7,8,9] : List Nat) (3, 6) 1 =
        some (T, Except.ok ()) ∧
      T.Perm [1,2,3,4,5,6,7,8,9] ∧
      (∀ k, k < 6 - 3 → T[1 + k]? = ([1,2,3,4,5,6,7,8,9] : List Nat)[3 + k]?) ∧
      (∀ j, j < 1 - 3 → T[3 + j]? = ([1,2,3,4,5,6,7,8,9] : List Nat)[6 + j]?) ∧
      (∀ j, j < 3 - 1 → T[1 + (6 - 3) + j]? = ([1,2,3,4,5,6,7,8,9] : List Nat)[1 + j]?) :=
  c1_relocation [1,2,3,4,5,6,7,8,9] 3 6 1 (by decide) (by decide) (by decide)

/-- C2: a call with `b > len S` always signals `InvalidBounds` carrying
`len S` and the bounds `(a, b)`, and leaves the sequence unchanged (no
mutation before validation). -/
theorem c2_invalid_bounds {α : Type} (S : List α) (a b d : Nat) (h : S.length < b) :
    try_moveslice_core S (a, b) d =
      some (S, Except.error (Error.InvalidBounds S.length (a, b))) :=
  core_invalid S a b d (Or.inr h)

/-- Witness for C2 at the spec scenario: chunk `(9, 10)` on `[1..9]`. -/
theorem c2_invalid_bounds_witness :
    ([1,2,3,4,5,6,7,8,9] : List Nat).length < 10 ∧
    try_moveslice_core ([1,2,3,4,5,6,7,8,9] : List Nat) (9, 10) 7 =
      some ([1,2,3,4,5,6,7,8,9], Except.error (Error.InvalidBounds 9 (9, 10))) :=
  ⟨by decide, c2_invalid_bounds [1,2,3,4,5,6,7,8,9] 9 10 7 (by decide)⟩

/-- C3 as stated is false: it quantifies over all `(a, b)` with
`b ≤ len S` and `d + (b - a) > len S`, but for `a > b` the code reaches the
subtraction `chunk.1 - chunk.0`, which underflows (a panic, modelled as
`none`) instead of signalling `OutOfBoundsMove`.  Concretely on `[1..9]`
with chunk `(5, 3)` and destination 12. -/
theorem c3_counterexample :
    3 ≤ ([1,2,3,4,5,6,7,8,9] : List Nat).length ∧
    ([1,2,3,4,5,6,7,8,9] : List Nat).length < 12 + (3 - 5) ∧
    try_moveslice_core ([1,2,3,4,5,6,7,8,9] : List Nat) (5, 3) 12 = none ∧
    try_moveslice_core ([1,2,3,4,5,6,7,8,9] : List Nat) (5, 3) 12 ≠
      some ([1,2,3,4,5,6,7,8,9],
        Except.error (Error.OutOfBoundsMove 9 (12, 12 + (3 - 5)))) := by
  refine ⟨by decide, by decide, rfl, ?_⟩
  intro h
  exact Option.noConfusion h

/-- C3 amended: additionally assuming `a ≤ b`, a call with `b ≤ len S` and
`d + (b - a) > len S` always signals `OutOfBoundsMove` carrying `len S` and
the destination range `(d, d + (b - a))`, and leaves the sequence
unchanged. -/
theorem c3_move_rejection {α : Type} (S : List α) (a b d : Nat)
    (hab : a ≤ b) (hb : b ≤ S.length) (hd : S.length < d + (b - a)) :
    try_moveslice_core S (a, b) d =
      some (S, Except.error (Error.OutOfBoundsMove S.length (d, d + (b - a)))) :=
  core_oob S a b d hab hb hd

/-- Witness for C3 at the spec scenario: chunk `(3, 6)` of `[1..9]` moved to
destination 7 is rejected with `OutOfBoundsMove {len: 9, dest: (7, 10)}`. -/
theorem c3_move_rejection_witness :
    try_moveslice_core ([1,2,3,4,5,6,7,8,9] : List Nat) (3, 6) 7 =
      some ([1,2,3,4,5,6,7,8,9], Except.error (Error.OutOfBoundsMove 9 (7, 10))) :=
  c3_move_rejection [1,2,3,4,5,6,7,8,9] 3 6 7 (by decide) (by decide) (by decide)

/-- C4 as stated is false: a zero-width chunk does not succeed for every
destination.  With sequence `[1,2,3]`, chunk `(0, 0)` and destination 5 the
call signals `OutOfBoundsMove` instead of succeeding as a no-op. -/
theorem c4_counterexample :
    try_moveslice_core ([1,2,3] : List Nat) (0, 0) 5 =
      some ([1,2,3], Except.error (Error.OutOfBoundsMove 3 (5, 5))) ∧
    try_moveslice_core ([1,2,3] : List Nat) (0, 0) 5 ≠
      some ([1,2,3], Except.ok ()) := by
  refine ⟨rfl, ?_⟩
  intro h
  exact Except.noConfusion (congrArg Prod.snd (Option.some.inj h))

/-- C4 amended: a zero-width chunk `(i, i)` with `i ≤ len S` and a
destination `d ≤ len S` always succeeds as a no-op, and a call with
`destination = start` and in-range bounds always succeeds as a no-op; in
both cases the sequence is unchanged and no error is signalled. -/
theorem c4_noop {α : Type} (S : List α) (i d a b : Nat)
    (hi : i ≤ S.length) (hd : d ≤ S.length) (ha : a ≤ S.length) (hb : b ≤ S.length) :
    try_moveslice_core S (i, i) d = some (S, Except.ok ()) ∧
    try_moveslice_core S (a, b) a = some (S, Except.ok ()) := by
  constructor
  · rcases Nat.lt_trichotomy i d with hgt | heq | hlt
    · rw [core_ok_of_gt S i i d (le_refl i) hi (by omega) hgt]
      have e2 : d + (i - i) = d := by omega
      rw [e2]
      have e1 : seg S i i = ([] : List α) := by
        simp [seg]
      rw [e1, List.append_nil]
      rw [take_seg_drop (le_of_lt hgt)]
    · rw [← heq]
      exact core_ok_of_eq S i i hi hi
    · rw [core_ok_of_lt S i i d (le_refl i) hi hlt]
      have e1 : seg S i i = ([] : List α) := by
        simp [seg]
      rw [e1, List.nil_append]
      rw [take_seg_drop (le_of_lt hlt)]
  · exact core_ok_of_eq S a b ha hb

/-- Witness for C4: zero-width chunk `(4, 4)` with destination 2, and the
spec scenario `(0, 3)` moved to destination 0, both no-ops on `[1..9]`. -/
theorem c4_noop_witness :
    try_moveslice_core ([1,2,3,4,5,6,7,8,9] : List Nat) (4, 4) 2 =
      some ([1,2,3,4,5,6,7,8,9], Except.ok ()) ∧
    try_moveslice_core ([1,2,3,4,5,6,7,8,9] : List Nat) (0, 3) 0 =
      some ([1,2,3,4,5,6,7,8,9], Except.ok ()) :=
  c4_noop [1,2,3,4,5,6,7,8,9] 4 2 0 3 (by decide) (by decide) (by decide) (by decide)

/-- C5 as stated is false: indices strictly between the chunk and the
destination lie outside the union of the two ranges, yet their elements are
shifted.  Moving chunk `(0, 1)` of `[10,20,30,40,50]` to destination 4
succeeds, index 2 is outside `[0,1) ∪ [4,5)`, and the element at index 2
changes. -/
theorem c5_counterexample :
    try_moveslice_core ([10,20,30,40,50] : List Nat) (0, 1) 4 =
      some ([20,30,40,50,10], Except.ok ()) ∧
    ¬ (0 ≤ 2 ∧ 2 < 1) ∧ ¬ (4 ≤ 2 ∧ 2 < 4 + (1 - 0)) ∧
    ([20,30,40,50,10] : List Nat)[2]? ≠ ([10,20,30,40,50] : List Nat)[2]? := by
  refine ⟨rfl, by decide, by decide, by decide⟩

/-- C5 amended: on every successful call, every element at an index outside
the minimal contiguous span bridging the chunk and the destination — that
is, below `min a d` or at/above `max b (d + (b - a))` — is unchanged. -/
theorem c5_frame {α : Type} (S : List α) (a b d : Nat)
    (hab : a ≤ b) (hb : b ≤ S.length) (hd : d + (b - a) ≤ S.length) :
    ∃ T, try_moveslice_core S (a, b) d = some (T, Except.ok ()) ∧
      ∀ i, i < min a d ∨ max b (d + (b - a)) ≤ i → T[i]? = S[i]? := by
  have ha : a ≤ S.length := le_trans hab hb
  rcases Nat.lt_trichotomy a d with hgt | heq | hlt
  · have hX : (seg S b (d + (b - a))).length = d - a := by
      rw [length_seg hd]
      omega
    have hY : (seg S a b).length = b - a := length_seg hb
    refine ⟨_, core_ok_of_gt S a b d hab hb hd hgt, ?_⟩
    intro i hi
    rcases hi with hi | hi
    · exact getElem?_block_left ha (by omega)
    · exact getElem?_block_right ha (by omega) (by rw [List.length_append]; omega)
        (by omega)
  · subst heq
    exact ⟨S, core_ok_of_eq S a b ha hb, fun i _ => rfl⟩
  · have hX : (seg S a b).length = b - a := length_seg hb
    have hY : (seg S d a).length = a - d := length_seg ha
    refine ⟨_, core_ok_of_lt S a b d hab hb hlt, ?_⟩
    intro i hi
    rcases hi with hi | hi
    · exact getElem?_block_left (by omega) (by omega)
    · exact getElem?_block_right (by omega) (by omega) (by rw [List.length_append]; omega)
        (by omega)

/-- Witness for C5 amended: moving chunk `(3, 6)` of `[1..9]` to
destination 6. -/
theorem c5_frame_witness :
    ∃ T, try_moveslice_core ([1,2,3,4,5,6,7,8,9] : List Nat) (3, 6) 6 =
        some (T, Except.ok ()) ∧
      ∀ i, i < min 3 6 ∨ max 6 (6 + (6 - 3)) ≤ i →
        T[i]? = ([1,2,3,4,5,6,7,8,9] : List Nat)[i]? :=
  c5_frame [1,2,3,4,5,6,7,8,9] 3 6 6 (by decide) (by decide) (by decide)

/-- C6: for all valid `a ≤ b ≤ len S` and `d + (b - a) ≤ len S`, moving
chunk `(a, b)` to destination `d` and then moving the resulting chunk
`(d, d + (b - a))` back to destination `a` restores the original
sequence. -/
theorem c6_round_trip {α : Type} (S : List α) (a b d : Nat)
    (hab : a ≤ b) (hb : b ≤ S.length) (hd : d + (b - a) ≤ S.length) :
    ∃ T, try_moveslice_core S (a, b) d = some (T, Except.ok ()) ∧
      try_moveslice_core T (d, d + (b - a)) a = some (S, Except.ok ()) := by
  rcases Nat.lt_trichotomy a d with hgt | heq | hlt
  · exact ⟨_, core_ok_of_gt S a b d hab hb hd hgt, undo_gt S a b d hab hb hd hgt⟩
  · subst heq
    refine ⟨S, core_ok_of_eq S a b (le_trans hab hb) hb, ?_⟩
    have e : a + (b - a) = b := by omega
    rw [e]
    exact core_ok_of_eq S a b (le_trans hab hb) hb
  · exact ⟨_, core_ok_of_lt S a b d hab hb hlt, undo_lt S a b d hab hb hlt⟩

/-- Witness for C6: chunk `(3, 6)` of `[1..9]` to destination 1 and back. -/
theorem c6_round_trip_witness :
    ∃ T, try_moveslice_core ([1,2,3,4,5,6,7,8,9] : List Nat) (3, 6) 1 =
        some (T, Except.ok ()) ∧
      try_moveslice_core T (1, 1 + (6 - 3)) 3 =
        some ([1,2,3,4,5,6,7,8,9], Except.ok ()) :=
  c6_round_trip [1,2,3,4,5,6,7,8,9] 3 6 1 (by decide) (by decide) (by decide)

/-- C7: for all valid inputs the multiset of elements after the call equals
the multiset before the call — the operation is a pure permutation, never
duplicating or dropping elements. -/
theorem c7_multiset_preserved {α : Type} (S : List α) (a b d : Nat)
    (hab : a ≤ b) (hb : b ≤ S.length) (hd : d + (b - a) ≤ S.length) :
    ∃ T, try_moveslice_core S (a, b) d = some (T, Except.ok ()) ∧
      (T : Multiset α) = (S : Multiset α) := by
  have ha : a ≤ S.length := le_trans hab hb
  rcases Nat.lt_trichotomy a d with hgt | heq | hlt
  · exact ⟨_, core_ok_of_gt S a b d hab hb hd hgt,
      Multiset.coe_eq_coe.mpr (canonical_perm_gt S a b d hab (by omega) (by omega))⟩
  · subst heq
    exact ⟨S, core_ok_of_eq S a b ha hb, rfl⟩
  · exact ⟨_, core_ok_of_lt S a b d hab hb hlt,
      Multiset.coe_eq_coe.mpr (canonical_perm_lt S a b d (le_of_lt hlt) hab)⟩

/-- Witness for C7: chunk `(3, 6)` of `[1..9]` to destination 6. -/
theorem c7_multiset_preserved_witness :
    ∃ T, try_moveslice_core ([1,2,3,4,5,6,7,8,9] : List Nat) (3, 6) 6 =
        some (T, Except.ok ()) ∧
      (T : Multiset Nat) = (([1,2,3,4,5,6,7,8,9] : List Nat) : Multiset Nat) :=
  c7_multiset_preserved [1,2,3,4,5,6,7,8,9] 3 6 6 (by decide) (by decide) (by decide)

/-- C8: the fallible entry point resolves its range expression to a concrete
`(start, end)` pair — an unbounded start to 0, an unbounded end to the
sequence length, an inclusive end `v` to `v + 1`, an exclusive end `v` to
`v` — and the relocation operates on exactly that resolved pair. -/
theorem c8_bound_resolution {α : Type} (S : List α) (sb eb : RBound) (d : Nat) :
    try_moveslice S sb eb d =
      try_moveslice_core S (resolveStart sb, resolveEnd S.length eb) d ∧
    resolveStart RBound.Unbounded = 0 ∧
    resolveEnd S.length RBound.Unbounded = S.length ∧
    (∀ v : Nat, resolveEnd S.length (RBound.Included v) = v + 1) ∧
    (∀ v : Nat, resolveEnd S.length (RBound.Excluded v) = v) := by
  refine ⟨?_, rfl, rfl, fun v => rfl, fun v => rfl⟩
  cases sb <;> cases eb <;> rfl

/-- C9: whenever the resolved bounds satisfy `start ≤ end`, `try_moveslice`
is total — no subtraction underflows, the splits and rotations are in
bounds, and the call returns `Ok` or one of the two documented errors; and
this totality fails for `start > end`, e.g. bounds `(5, 3)` with
destination 0 on `[1..9]`, where the rotation amount `chunk.1 - chunk.0`
underflows (a panic). -/
theorem c9_totality :
    (∀ (α : Type) (S : List α) (a b d : Nat), a ≤ b →
      (try_moveslice_core S (a, b) d).isSome = true) ∧
    try_moveslice_core ([1,2,3,4,5,6,7,8,9] : List Nat) (5, 3) 0 = none := by
  constructor
  · intro α S a b d hab
    by_cases h1 : a > S.length ∨ b > S.length
    · simp only [try_moveslice_core]
      rw [if_pos h1]
      rfl
    · have ha : a ≤ S.length := by omega
      have hb : b ≤ S.length := by omega
      rcases Nat.lt_trichotomy a d with hgt | heq | hlt
      · by_cases h2 : d + (b - a) ≤ S.length
        · rw [core_ok_of_gt S a b d hab hb h2 hgt]
          rfl
        · rw [core_oob S a b d hab hb (by omega)]
          rfl
      · rw [← heq, core_ok_of_eq S a b ha hb]
        rfl
      · rw [core_ok_of_lt S a b d hab hb hlt]
        rfl
  · rfl

/-- Witness for C9: a concrete in-bounds call is `some`. -/
theorem c9_totality_witness :
    (0 : Nat) ≤ 2 ∧ (try_moveslice_core ([1,2,3] : List Nat) (0, 2) 1).isSome = true :=
  ⟨by decide, c9_totality.1 Nat [1,2,3] 0 2 1 (by decide)⟩

/-- C10: an excluded start bound `Excluded n` resolves to 0, exactly like an
unbounded start, not to `n + 1`; the chunk moved therefore begins at index 0
regardless of `n`. -/
theorem c10_excluded_start {α : Type} (S : List α) (n : Nat) (eb : RBound) (d : Nat) :
    try_moveslice S (RBound.Excluded n) eb d = try_moveslice S RBound.Unbounded eb d ∧
    resolveStart (RBound.Excluded n) = 0 ∧
    resolveStart (RBound.Excluded n) = resolveStart RBound.Unbounded :=
  ⟨rfl, rfl, rfl⟩

end Moveslice
